import Mathlib

/-!
Verification of the Simpleproxy route-resolution and request/response
translation pipeline (src/proxy.rs, src/config.rs) against its
natural-language specification.

The Rust code is shallowly embedded: header maps become ordered lists of
name/value pairs, `HashMap` iteration is fixed to first-occurrence order
(the claims proved below do not depend on the inter-key order, which Rust
leaves unspecified), fallible operations become `Except`/`Option`, and the
outbound forwarding call is passed in as an explicit outcome parameter
since it performs I/O.
-/

/-- ASCII lowercasing of a string, used to embed Rust's case-insensitive
`HeaderName` comparison and `str::to_lowercase` on header names (header
names are ASCII, where the two agree). -/
def lowerStr (s : String) : String :=
  String.mk (List.map Char.toLower (String.data s))

/-- Rust `str::starts_with`, embedded over the character lists. -/
def strStartsWith (s p : String) : Bool :=
  List.isPrefixOf (String.data p) (String.data s)

/-- ProxyConfig from src/config.rs: optional value for the Server header on
synthesized error responses. -/
structure ProxyConfig where
  error_server_header : Option String
deriving DecidableEq

/-- Route from src/config.rs. The `response_headers` field is read by
src/proxy.rs (`route.response_headers`) but is absent from the Route
declaration in src/config.rs. Modelled from the spec: `responseHeaders:
optional mapping<string,string>` (section 6); the mapping is embedded as an
ordered list of pairs, its iteration order being unspecified in Rust. -/
structure Route where
  path_prefix : Option String
  host : Option String
  default : Option Bool
  upstream : String
  strip_path_prefix : Option Bool
  response_headers : Option (List (String × String))
deriving DecidableEq

/-- Config from src/config.rs, restricted to the fields the proxy handler
reads; `net` and `tls` only concern the transport collaborator. -/
structure Config where
  routes : List Route
  proxy : Option ProxyConfig

/-- An inbound header value. Actix `HeaderValue` may hold bytes that are not
a visible-ASCII string; `to_str` then fails. The payload is abstracted as
the string together with a flag telling whether `to_str` succeeds. -/
structure HeaderValue where
  str : String
  valid : Bool
deriving DecidableEq

/-- HeaderValue::to_str, returning the string only when it is valid. -/
def headerToStr (v : HeaderValue) : Option String :=
  if HeaderValue.valid v then some (HeaderValue.str v) else none

/-- The parts of an actix `HttpRequest` (plus the buffered payload outcome)
that the proxy handler reads. Header names are kept as transmitted; all
lookups and grouping below compare them case-insensitively, mirroring
`HeaderName` equality. -/
structure HttpRequest where
  path : String
  query_string : String
  headers : List (String × HeaderValue)
  uri_host : Option String
  realip_remote_addr : Option String
  scheme : String
  body : Except String (List Nat)

/-- An upstream (reqwest) response: status, header pairs (names already
lowercased by the HTTP library), and the outcome of buffering the body. -/
structure UpstreamResponse where
  status : Nat
  headers : List (String × String)
  body : Except String (List Nat)

/-- The actix response sent back to the client. -/
structure HttpResponse where
  status : Nat
  headers : List (String × String)
  body : List Nat
deriving DecidableEq

/-- Abstract byte rendering of an error text used as a response body. -/
def strBytes (s : String) : List Nat :=
  List.map Char.toNat (String.data s)

/-- HeaderMap::get: first value stored under the (case-insensitive) name. -/
def headersGet (hs : List (String × HeaderValue)) (name : String) :
    Option HeaderValue :=
  Option.map Prod.snd (List.find? (fun p => lowerStr p.1 == name) hs)

/-- get_request_host from src/proxy.rs: the Host header's value if the
header is present (`to_str().ok()`, no fallback on an invalid value),
otherwise the request-target (URI) host. -/
def get_request_host (req : HttpRequest) : Option String :=
  match headersGet (HttpRequest.headers req) "host" with
  | some h => headerToStr h
  | none => HttpRequest.uri_host req

/-- Tier-1 predicate of choose_route: both `host` and `path_prefix` are set,
the host matches exactly and the path starts with the prefix. -/
def tierHostPath (host path : String) (r : Route) : Bool :=
  match Route.host r, Route.path_prefix r with
  | some rh, some rp => rh == host && strStartsWith path rp
  | _, _ => false

/-- Tier-2 predicate of choose_route: `host` is set and matches exactly. -/
def tierHost (host : String) (r : Route) : Bool :=
  match Route.host r with
  | some rh => rh == host
  | none => false

/-- Tier-3 predicate of choose_route: `path_prefix` is set and the path
starts with it. -/
def tierPath (path : String) (r : Route) : Bool :=
  match Route.path_prefix r with
  | some rp => strStartsWith path rp
  | none => false

/-- Tier-4 predicate of choose_route: `default` is `Some(true)`. -/
def tierDefault (r : Route) : Bool :=
  match Route.default r with
  | some d => d
  | none => false

/-- choose_route from src/proxy.rs. The Rust loop pushes each matching
route, in table order, into one list per tier; this is `List.filter` with
the four tier predicates. The first element of the first non-empty tier
list is returned. -/
def choose_route (host path : String) (routes : List Route) : Option Route :=
  match List.head? (List.filter (tierHostPath host path) routes) with
  | some r => some r
  | none =>
    match List.head? (List.filter (tierHost host) routes) with
    | some r => some r
    | none =>
      match List.head? (List.filter (tierPath path) routes) with
      | some r => some r
      | none => List.head? (List.filter tierDefault routes)

/-- One step of the scan behind Rust `str::replace(pat, "")`: if `pat`
occurs as a prefix here, drop it and continue after it, otherwise keep one
character. The fuel (one more than the text length) strictly bounds the
recursion because every step consumes at least one character of text. -/
def removeOccAux : Nat → List Char → List Char → List Char
  | 0, _, s => s
  | fuel + 1, pat, s =>
    match s with
    | [] => []
    | c :: cs =>
      if List.isPrefixOf pat s then
        removeOccAux fuel pat (List.drop (List.length pat) s)
      else
        c :: removeOccAux fuel pat cs

/-- Rust `str::replace(pat, "")`: remove every leftmost non-overlapping
occurrence of `pat`. An empty pattern leaves the string unchanged, as in
Rust where replacing the empty pattern with the empty string is identity. -/
def strReplaceEmpty (s pat : String) : String :=
  if pat = "" then s
  else String.mk (removeOccAux (List.length (String.data s) + 1)
    (String.data pat) (String.data s))

/-- build_request_path from src/proxy.rs: when both `path_prefix` and
`strip_path_prefix` are set and stripping is enabled, the path is
`orig_path.replace(path_prefix, "")`; otherwise the original path. -/
def build_request_path (orig_path : String) (route : Route) : String :=
  match Route.path_prefix route, Route.strip_path_prefix route with
  | some pp, some strip => if strip then strReplaceEmpty orig_path pp else orig_path
  | _, _ => orig_path

/-- get_server_header from src/proxy.rs. -/
def get_server_header (proxy_config : Option ProxyConfig) : String :=
  Option.getD (Option.join (Option.map ProxyConfig.error_server_header proxy_config)) ""

/-- Actix `HttpResponseBuilder::insert_header`: any existing values under
the (lowercased) name are replaced by the single new value. -/
def insert_header (hs : List (String × String)) (k v : String) :
    List (String × String) :=
  List.filter (fun p => p.1 != lowerStr k) hs ++ [(lowerStr k, v)]

/-- reqwest_response_to_actix from src/proxy.rs. A transport failure gives
502 with the Server header and the error text as body; on success every
upstream header is inserted (replace semantics), then every configured
response header is inserted on top; a body-read failure gives a bare 503. -/
def reqwest_response_to_actix (response : Except String UpstreamResponse)
    (proxy_config : Option ProxyConfig) (route : Route) : HttpResponse :=
  match response with
  | Except.error e =>
    { status := 502
      headers := insert_header [] "Server" (get_server_header proxy_config)
      body := strBytes e }
  | Except.ok resp =>
    let hs := List.foldl (fun a kv => insert_header a kv.1 kv.2) []
      (UpstreamResponse.headers resp)
    let hs2 := match Route.response_headers route with
      | some rh => List.foldl (fun a kv => insert_header a kv.1 kv.2) hs rh
      | none => hs
    match UpstreamResponse.body resp with
    | Except.error _ => { status := 503, headers := [], body := [] }
    | Except.ok b => { status := UpstreamResponse.status resp, headers := hs2, body := b }

/-- One step of the header-grouping loop of make_request: Rust
`HashMap::entry(k).and_modify(push v).or_insert(vec![v])`, with the map
embedded as an association list in first-insertion order. -/
def pushEntry (acc : List (String × List HeaderValue)) (k : String)
    (v : HeaderValue) : List (String × List HeaderValue) :=
  if List.any acc (fun p => p.1 == k) then
    List.map (fun p => if p.1 == k then (p.1, p.2 ++ [v]) else p) acc
  else acc ++ [(k, [v])]

/-- The grouping loop of make_request: every inbound header value is pushed
under its name. `HeaderName` equality is case-insensitive, embedded by
lowercasing the name. -/
def header_map (hs : List (String × HeaderValue)) :
    List (String × List HeaderValue) :=
  List.foldl (fun a kv => pushEntry a (lowerStr kv.1) kv.2) [] hs

/-- processed_headers of make_request: per name, the values that convert
with `to_str` are kept and joined with the literal separator. -/
def processed_headers (hs : List (String × HeaderValue)) :
    List (String × String) :=
  List.map (fun p => (p.1, String.intercalate "; " (List.filterMap headerToStr p.2)))
    (header_map hs)

/-- All inbound values stored under a (lowercase) name, in arrival order. -/
def inboundValuesFor (hs : List (String × HeaderValue)) (n : String) :
    List HeaderValue :=
  List.map Prod.snd (List.filter (fun p => lowerStr p.1 == n) hs)

/-- The X-Forwarded-For value computed by make_request. -/
def x_forwarded_for (req : HttpRequest) : String :=
  match Option.bind (headersGet (HttpRequest.headers req) "x-forwarded-for") headerToStr with
  | some x =>
    if x ≠ "" then
      x ++ " " ++ Option.getD (HttpRequest.realip_remote_addr req) ""
    else x
  | none => Option.getD (HttpRequest.realip_remote_addr req) ""

/-- The outbound header list built by make_request: the joined headers
except Host (compared lowercased), then Host set to the original inbound
host, then the X-Real-IP / X-Forwarded-* headers, appended in program
order. -/
def make_request_headers (req : HttpRequest) (original_host : String) :
    List (String × String) :=
  List.filter (fun p => !(lowerStr p.1 == "host"))
      (processed_headers (HttpRequest.headers req))
    ++ [("host", original_host),
        ("x-real-ip", Option.getD (HttpRequest.realip_remote_addr req) ""),
        ("x-forwarded-for", x_forwarded_for req),
        ("x-forwarded-proto", HttpRequest.scheme req),
        ("x-forwarded-host", original_host)]

/-- The proxy handler from src/proxy.rs. The outcome of the outbound
request (which performs I/O) is supplied as `forward_result`. -/
def proxy (data : Config) (req : HttpRequest)
    (forward_result : Except String UpstreamResponse) : HttpResponse :=
  match get_request_host req with
  | none => { status := 502, headers := [], body := [] }
  | some host =>
    match HttpRequest.body req with
    | Except.error _ => { status := 503, headers := [], body := [] }
    | Except.ok _ =>
      match choose_route host (HttpRequest.path req) (Config.routes data) with
      | none =>
        { status := 404
          headers := insert_header [] "Server" (get_server_header (Config.proxy data))
          body := [] }
      | some route => reqwest_response_to_actix forward_result (Config.proxy data) route

/-- One step of the host-counting loop of Config::validate:
`entry(host).and_modify(increment).or_insert(0)` — note the first route
with a given host stores count zero. -/
def bumpHostCount (m : List (String × Nat)) (h : String) : List (String × Nat) :=
  if List.any m (fun p => p.1 == h) then
    List.map (fun p => if p.1 == h then (p.1, p.2 + 1) else p) m
  else m ++ [(h, 0)]

/-- The counting loop of Config::validate: for every route, bump the
per-host counter when `host` is set, otherwise increment the no-host
counter. The `default` field is never consulted, exactly as in the code. -/
def defaultCounts (routes : List Route) : List (String × Nat) × Nat :=
  List.foldl
    (fun acc r =>
      match Route.host r with
      | some h => (bumpHostCount acc.1 h, acc.2)
      | none => (acc.1, acc.2 + 1))
    ([], 0) routes

/-- The route-checking part of Config::validate from src/config.rs (the TLS
file-existence checks are I/O against the filesystem and outside this
model): the configuration is rejected when some per-host counter exceeds 1
or the no-host counter exceeds 1. Acceptance does not depend on the
unspecified HashMap iteration order. -/
def validate (routes : List Route) : Bool :=
  List.all (defaultCounts routes).1 (fun p => p.2 ≤ 1)
    && (defaultCounts routes).2 ≤ 1

/-- Helper: the head of a filtered list is the first element satisfying the
predicate, so table order decides ties within a tier. -/
theorem head?_filter_eq_find? {α : Type} (p : α → Bool) (l : List α) :
    List.head? (List.filter p l) = List.find? p l := by
  induction l with
  | nil => rfl
  | cons a t ih =>
    simp only [List.filter_cons, List.find?]
    cases h : p a <;> simp [h, ih]

/-- Helper: choose_route written with `List.find?` per tier, fallback by
`Option.or`. -/
theorem choose_route_eq (host path : String) (routes : List Route) :
    choose_route host path routes =
      Option.or (List.find? (tierHostPath host path) routes)
        (Option.or (List.find? (tierHost host) routes)
          (Option.or (List.find? (tierPath path) routes)
            (List.find? tierDefault routes))) := by
  unfold choose_route
  rw [head?_filter_eq_find?, head?_filter_eq_find?, head?_filter_eq_find?,
    head?_filter_eq_find?]
  rcases List.find? (tierHostPath host path) routes with _ | r1 <;>
    rcases List.find? (tierHost host) routes with _ | r2 <;>
      rcases List.find? (tierPath path) routes with _ | r3 <;>
        simp [Option.or]

/-- C1: choose_route returns a route of the highest-priority non-empty tier
(host+path, host, path, default, in that order), never a lower tier when a
higher tier has a match; within a tier the first route in table order wins
(`List.find?`); it returns none exactly when no tier has a match. -/
theorem c1_resolve_tier_order (host path : String) (routes : List Route) :
    (choose_route host path routes = none ↔
      ∀ r ∈ routes, tierHostPath host path r = false ∧ tierHost host r = false
        ∧ tierPath path r = false ∧ tierDefault r = false)
  ∧ (∀ r, choose_route host path routes = some r →
      (List.find? (tierHostPath host path) routes = some r
       ∨ ((∀ x ∈ routes, tierHostPath host path x = false)
            ∧ List.find? (tierHost host) routes = some r)
       ∨ ((∀ x ∈ routes, tierHostPath host path x = false ∧ tierHost host x = false)
            ∧ List.find? (tierPath path) routes = some r)
       ∨ ((∀ x ∈ routes, tierHostPath host path x = false ∧ tierHost host x = false
             ∧ tierPath path x = false)
            ∧ List.find? tierDefault routes = some r))) := by
  rw [choose_route_eq]
  rcases h1 : List.find? (tierHostPath host path) routes with _ | r1
  · rcases h2 : List.find? (tierHost host) routes with _ | r2
    · rcases h3 : List.find? (tierPath path) routes with _ | r3
      · have n1 := List.find?_eq_none.mp h1
        have n2 := List.find?_eq_none.mp h2
        have n3 := List.find?_eq_none.mp h3
        rcases h4 : List.find? tierDefault routes with _ | r4
        · have n4 := List.find?_eq_none.mp h4
          constructor
          · constructor
            · intro _ r hr
              exact ⟨by simpa using n1 r hr, by simpa using n2 r hr,
                by simpa using n3 r hr, by simpa using n4 r hr⟩
            · intro _
              simp [Option.or]
          · intro r hr
            simp [Option.or] at hr
        · constructor
          · simp only [Option.or]
            constructor
            · intro h
              simp at h
            · intro hall
              have hm := List.mem_of_find?_eq_some h4
              have hp := List.find?_some h4
              have := (hall r4 hm).2.2.2
              rw [this] at hp
              cases hp
          · intro r hr
            simp only [Option.or] at hr
            refine Or.inr (Or.inr (Or.inr ⟨?_, ?_⟩))
            · intro x hx
              exact ⟨by simpa using n1 x hx, by simpa using n2 x hx,
                by simpa using n3 x hx⟩
            · exact hr
      · have n1 := List.find?_eq_none.mp h1
        have n2 := List.find?_eq_none.mp h2
        constructor
        · simp only [Option.or]
          constructor
          · intro h
            simp at h
          · intro hall
            have hm := List.mem_of_find?_eq_some h3
            have hp := List.find?_some h3
            have := (hall r3 hm).2.2.1
            rw [this] at hp
            cases hp
        · intro r hr
          simp only [Option.or] at hr
          refine Or.inr (Or.inr (Or.inl ⟨?_, ?_⟩))
          · intro x hx
            exact ⟨by simpa using n1 x hx, by simpa using n2 x hx⟩
          · exact hr
    · have n1 := List.find?_eq_none.mp h1
      constructor
      · simp only [Option.or]
        constructor
        · intro h
          simp at h
        · intro hall
          have hm := List.mem_of_find?_eq_some h2
          have hp := List.find?_some h2
          have := (hall r2 hm).2.1
          rw [this] at hp
          cases hp
      · intro r hr
        simp only [Option.or] at hr
        refine Or.inr (Or.inl ⟨?_, ?_⟩)
        · intro x hx
          simpa using n1 x hx
        · exact hr
  · constructor
    · simp only [Option.or]
      constructor
      · intro h
        simp at h
      · intro hall
        have hm := List.mem_of_find?_eq_some h1
        have hp := List.find?_some h1
        have := (hall r1 hm).1
        rw [this] at hp
        cases hp
    · intro r hr
      simp only [Option.or] at hr
      exact Or.inl hr

/-- Sample route to upstream u1: host a.com with path prefix /api (the
resolution scenario of spec section 8). -/
def routeU1 : Route :=
  { path_prefix := some "/api", host := some "a.com", default := none,
    upstream := "http://u1", strip_path_prefix := none, response_headers := none }

/-- Sample default route to upstream u2 (spec section 8 scenario). -/
def routeU2 : Route :=
  { path_prefix := none, host := none, default := some true,
    upstream := "http://u2", strip_path_prefix := none, response_headers := none }

/-- Witness for C1 at the spec scenario table: host a.com, path /api/x
resolves, and the theorem places the result in a tier. -/
theorem c1_resolve_tier_order_witness :
    List.find? (tierHostPath "a.com" "/api/x") [routeU1, routeU2] = some routeU1
    ∨ ((∀ x ∈ [routeU1, routeU2], tierHostPath "a.com" "/api/x" x = false)
        ∧ List.find? (tierHost "a.com") [routeU1, routeU2] = some routeU1)
    ∨ ((∀ x ∈ [routeU1, routeU2], tierHostPath "a.com" "/api/x" x = false
          ∧ tierHost "a.com" x = false)
        ∧ List.find? (tierPath "/api/x") [routeU1, routeU2] = some routeU1)
    ∨ ((∀ x ∈ [routeU1, routeU2], tierHostPath "a.com" "/api/x" x = false
          ∧ tierHost "a.com" x = false ∧ tierPath "/api/x" x = false)
        ∧ List.find? tierDefault [routeU1, routeU2] = some routeU1) :=
  (c1_resolve_tier_order "a.com" "/api/x" [routeU1, routeU2]).2 routeU1 (by decide)

/-- Route with a matching host but an unmatched path prefix: it qualifies
for the host tier only. -/
def routeHostOnly : Route :=
  { path_prefix := some "/zzz", host := some "a.com", default := none,
    upstream := "http://u0", strip_path_prefix := none, response_headers := none }

/-- Default route restricted to host a.com. -/
def routeDefaultHost : Route :=
  { path_prefix := none, host := some "a.com", default := some true,
    upstream := "http://udh", strip_path_prefix := none, response_headers := none }

/-- Default route with no host restriction. -/
def routeDefaultNoHost : Route :=
  { path_prefix := none, host := none, default := some true,
    upstream := "http://udn", strip_path_prefix := none, response_headers := none }

/-- Counterexample to C3: the table holds both a default route whose host
equals the request host (routeDefaultHost) and a default route with no host
(routeDefaultNoHost), yet resolution returns routeHostOnly — a non-default
route picked by the host tier — not the host-matching default the claim
promises. The default tier itself never applies a host preference. -/
theorem c3_default_counterexample :
    choose_route "a.com" "/x" [routeDefaultNoHost, routeHostOnly, routeDefaultHost]
        = some routeHostOnly
      ∧ tierDefault routeDefaultHost = true
      ∧ Route.host routeDefaultHost = some "a.com"
      ∧ tierDefault routeDefaultNoHost = true
      ∧ Route.host routeDefaultNoHost = none
      ∧ tierDefault routeHostOnly = false
      ∧ routeHostOnly ≠ routeDefaultHost := by decide

/-- C3 amended: the default tier has no host preference — when no route
matches tiers 1 to 3, choose_route returns the first route in table order
with `default = Some(true)`, whatever its host field says. A default route
whose host equals the request host is instead picked up by the host tier,
so the default tier never sees one. -/
theorem c3_default_amended (host path : String) (routes : List Route)
    (h1 : ∀ x ∈ routes, tierHostPath host path x = false)
    (h2 : ∀ x ∈ routes, tierHost host x = false)
    (h3 : ∀ x ∈ routes, tierPath path x = false) :
    choose_route host path routes = List.find? tierDefault routes := by
  rw [choose_route_eq]
  rw [List.find?_eq_none.mpr (fun x hx => by simp [h1 x hx]),
    List.find?_eq_none.mpr (fun x hx => by simp [h2 x hx]),
    List.find?_eq_none.mpr (fun x hx => by simp [h3 x hx])]
  rcases List.find? tierDefault routes with _ | r <;> simp [Option.or]

/-- Witness for C3 amended: with two default routes and nothing else
matching, the first default in table order is returned even though the
second is the more host-restricted one. -/
theorem c3_default_amended_witness :
    choose_route "b.com" "/x" [routeDefaultNoHost, routeDefaultHost]
      = List.find? tierDefault [routeDefaultNoHost, routeDefaultHost] :=
  c3_default_amended "b.com" "/x" [routeDefaultNoHost, routeDefaultHost]
    (by decide) (by decide) (by decide)

/-- Route stripping path prefix /foo (spec section 8 scenario). -/
def routeStripFoo : Route :=
  { path_prefix := some "/foo", host := none, default := none,
    upstream := "http://u", strip_path_prefix := some true, response_headers := none }

/-- Counterexample to C2: the claim predicts that only the first occurrence
of the prefix is removed, leaving "/foo/bar"; the code removes every
occurrence (`str::replace` with the empty string), producing "/bar". -/
theorem c2_strip_counterexample :
    build_request_path "/foo/foo/bar" routeStripFoo = "/bar"
      ∧ "/bar" ≠ "/foo/bar" := by decide

/-- C2 amended: with the prefix present and stripping enabled the rewriter
removes every leftmost non-overlapping occurrence of the prefix (Rust
`str::replace` semantics), not only the first; with stripping disabled or
absent, or no prefix configured, the path is returned unchanged. -/
theorem c2_strip_amended (p : String) (route : Route) :
    (∀ pp, Route.path_prefix route = some pp →
        Route.strip_path_prefix route = some true →
        build_request_path p route = strReplaceEmpty p pp)
  ∧ ( Route.strip_path_prefix route ≠ some true → build_request_path p route = p)
  ∧ ( Route.path_prefix route = none → build_request_path p route = p) := by
  unfold build_request_path
  rcases hpp : Route.path_prefix route with _ | pp <;>
    rcases hsp : Route.strip_path_prefix route with _ | b
  · exact ⟨fun _ h => (nomatch h), fun _ => rfl, fun _ => rfl⟩
  · exact ⟨fun _ h => (nomatch h), fun _ => rfl, fun _ => rfl⟩
  · exact ⟨fun _ _ h2 => (nomatch h2), fun _ => rfl, fun h => (nomatch h)⟩
  · refine ⟨?_, ?_, ?_⟩
    · intro pp' h1 h2
      cases h1
      cases h2
      simp
    · intro hne
      have hb : b = false := by
        cases b
        · rfl
        · exact absurd rfl hne
      simp [hb]
    · intro h
      exact nomatch h

/-- Witness for C2 amended at the spec scenario: prefix /foo stripped from
/foo/bar gives /bar. -/
theorem c2_strip_amended_witness :
    build_request_path "/foo/bar" routeStripFoo = strReplaceEmpty "/foo/bar" "/foo"
      ∧ strReplaceEmpty "/foo/bar" "/foo" = "/bar" :=
  ⟨(c2_strip_amended "/foo/bar" routeStripFoo).1 "/foo" rfl rfl, by decide⟩

/-- First default route for host a.com. -/
def routeDefA1 : Route :=
  { path_prefix := none, host := some "a.com", default := some true,
    upstream := "http://u1", strip_path_prefix := none, response_headers := none }

/-- Second default route for the same host a.com. -/
def routeDefA2 : Route :=
  { path_prefix := none, host := some "a.com", default := some true,
    upstream := "http://u2", strip_path_prefix := none, response_headers := none }

/-- Non-default route without a host. -/
def routePlainNoHost1 : Route :=
  { path_prefix := some "/a", host := none, default := some false,
    upstream := "http://u3", strip_path_prefix := none, response_headers := none }

/-- Another non-default route without a host. -/
def routePlainNoHost2 : Route :=
  { path_prefix := some "/b", host := none, default := some false,
    upstream := "http://u4", strip_path_prefix := none, response_headers := none }

/-- C4 evidence: Config::validate never reads the `default` field, so a
configuration with two default routes for the same host is accepted —
contradicting both the claim and the doc comment on the field in
src/config.rs ("Only one route may have this set to true per host") — while
a configuration with two non-default host-less routes, which satisfies the
at-most-one-default invariant, is rejected. -/
theorem c4_validate_bug :
    validate [routeDefA1, routeDefA2] = true
  ∧ Route.default routeDefA1 = some true
  ∧ Route.default routeDefA2 = some true
  ∧ Route.host routeDefA1 = Route.host routeDefA2
  ∧ validate [routePlainNoHost1, routePlainNoHost2] = false
  ∧ Route.default routePlainNoHost1 = some false
  ∧ Route.default routePlainNoHost2 = some false := by decide

/-- First value stored under a name in a response header list. -/
def lookupHeader (hs : List (String × String)) (n : String) : Option String :=
  Option.map Prod.snd (List.find? (fun p => p.1 == n) hs)

/-- Last value stored under a (case-insensitively compared) name, scanning
left to right — the survivor of repeated replace-style inserts. -/
def lastValueFor (hs : List (String × String)) (n : String) : Option String :=
  List.foldl (fun acc kv => if lowerStr kv.1 == n then some kv.2 else acc) none hs

/-- Helper: find? ignores a filter that keeps everything the predicate
could accept. -/
theorem find?_filter_of_imp {α : Type} (p q : α → Bool) (l : List α)
    (h : ∀ x, p x = true → q x = true) :
    List.find? p (List.filter q l) = List.find? p l := by
  induction l with
  | nil => rfl
  | cons a t ih =>
    by_cases hq : q a = true
    · rw [List.filter_cons_of_pos hq]
      cases hp : p a
      · rw [List.find?_cons_of_neg _ (by simp [hp]), List.find?_cons_of_neg _ (by simp [hp])]
        exact ih
      · rw [List.find?_cons_of_pos _ hp, List.find?_cons_of_pos _ hp]
    · have hp : p a = false := by
        cases hpa : p a
        · rfl
        · exact absurd (h a hpa) hq
      rw [List.filter_cons_of_neg (by simp [hq]),
        List.find?_cons_of_neg _ (by simp [hp])]
      exact ih

/-- Helper: looking a name up after insert_header sees the new value
exactly when the inserted (lowercased) name is the one sought. -/
theorem lookupHeader_insert (hs : List (String × String)) (k v n : String) :
    lookupHeader (insert_header hs k v) n =
      if lowerStr k == n then some v else lookupHeader hs n := by
  unfold lookupHeader insert_header
  rw [List.find?_append]
  by_cases hk : (lowerStr k == n) = true
  · have hkeq : lowerStr k = n := by simpa using hk
    have hnil : List.find? (fun p => p.1 == n)
        (List.filter (fun p => p.1 != lowerStr k) hs) = none := by
      refine List.find?_eq_none.mpr ?_
      intro x hx
      have hxk := (List.mem_filter.mp hx).2
      intro hxn
      rw [hkeq] at hxk
      simp at hxk hxn
      exact hxk hxn
    rw [hnil, if_pos hk]
    simp [List.find?, hk]
  · have hne : ¬ lowerStr k = n := by simpa using hk
    have hfil : List.find? (fun p => p.1 == n)
          (List.filter (fun p => p.1 != lowerStr k) hs)
        = List.find? (fun p => p.1 == n) hs := by
      refine find?_filter_of_imp _ _ _ ?_
      intro x hx
      have : x.1 = n := by simpa using hx
      simp [this]
      exact fun h => hne h.symm
    rw [hfil, if_neg hk]
    have hsingle : List.find? (fun p => p.1 == n) [(lowerStr k, v)] = none := by
      simp [List.find?, hk]
    rw [hsingle]
    rcases List.find? (fun p => p.1 == n) hs with _ | x <;> simp

/-- Helper: a left fold of replace-style inserts is looked up by folding
the matching values over the starting lookup. -/
theorem lookupHeader_fold_insert (hs : List (String × String))
    (acc : List (String × String)) (n : String) :
    lookupHeader (List.foldl (fun a kv => insert_header a kv.1 kv.2) acc hs) n =
      List.foldl (fun o kv => if lowerStr kv.1 == n then some kv.2 else o)
        (lookupHeader acc n) hs := by
  induction hs generalizing acc with
  | nil => rfl
  | cons kv t ih =>
    simp only [List.foldl_cons]
    rw [ih, lookupHeader_insert]

/-- Helper: folding the matching values over a start `o` yields the last
matching value when there is one, else `o`. -/
theorem foldl_lastValueFor (hs : List (String × String)) (n : String)
    (o : Option String) :
    List.foldl (fun o kv => if lowerStr kv.1 == n then some kv.2 else o) o hs =
      match lastValueFor hs n with
      | some v => some v
      | none => o := by
  induction hs generalizing o with
  | nil => simp [lastValueFor]
  | cons kv t ih =>
    simp only [List.foldl_cons, lastValueFor]
    by_cases h : (lowerStr kv.1 == n) = true
    · rw [if_pos h, if_pos h, ih (some kv.2)]
      rcases lastValueFor t n with _ | v <;> rfl
    · rw [if_neg h, if_neg h, ih o]
      rfl

/-- C5 amended: on a successful upstream outcome the translated response
has the upstream status verbatim and the buffered body bytes, and each
header name resolves to the route's configured response-header value when
one exists (overlay precedence), otherwise to the LAST upstream value for
that name — actix insert_header replaces, so earlier values of a name
repeated by the upstream are lost, not copied. A body-read failure after a
successful status line yields a bare 503 with empty body. -/
theorem c5_translate_amended (resp : UpstreamResponse) (pc : Option ProxyConfig)
    (route : Route) :
    (∀ b, UpstreamResponse.body resp = Except.ok b →
        HttpResponse.status (reqwest_response_to_actix (Except.ok resp) pc route)
            = UpstreamResponse.status resp
          ∧ HttpResponse.body (reqwest_response_to_actix (Except.ok resp) pc route) = b
          ∧ ∀ n, lookupHeader
                (HttpResponse.headers (reqwest_response_to_actix (Except.ok resp) pc route)) n
              = match lastValueFor (Option.getD (Route.response_headers route) []) n with
                | some v => some v
                | none => lastValueFor (UpstreamResponse.headers resp) n)
  ∧ (∀ e, UpstreamResponse.body resp = Except.error e →
      reqwest_response_to_actix (Except.ok resp) pc route
        = { status := 503, headers := [], body := [] }) := by
  obtain ⟨st, hdrs, bd⟩ := resp
  constructor
  · intro b hb
    subst hb
    rcases hrh : Route.response_headers route with _ | rh
    · have hred : reqwest_response_to_actix
          (Except.ok { status := st, headers := hdrs, body := Except.ok b }) pc route =
          { status := st
            headers := List.foldl (fun a kv => insert_header a kv.1 kv.2) [] hdrs
            body := b } := by
        unfold reqwest_response_to_actix
        rw [hrh]
      rw [hred]
      refine ⟨rfl, rfl, ?_⟩
      intro n
      rw [lookupHeader_fold_insert]
      rfl
    · have hred : reqwest_response_to_actix
          (Except.ok { status := st, headers := hdrs, body := Except.ok b }) pc route =
          { status := st
            headers := List.foldl (fun a kv => insert_header a kv.1 kv.2)
              (List.foldl (fun a kv => insert_header a kv.1 kv.2) [] hdrs) rh
            body := b } := by
        unfold reqwest_response_to_actix
        rw [hrh]
      rw [hred]
      refine ⟨rfl, rfl, ?_⟩
      intro n
      rw [lookupHeader_fold_insert, lookupHeader_fold_insert]
      have hnone : lookupHeader [] n = none := rfl
      rw [hnone, foldl_lastValueFor]
      rfl
  · intro e he
    subst he
    rcases hrh : Route.response_headers route with _ | rh <;>
      · unfold reqwest_response_to_actix
        rw [hrh]

/-- Upstream response carrying two values for the same header name. -/
def respDup : UpstreamResponse :=
  { status := 200, headers := [("x-dup", "a"), ("x-dup", "b")],
    body := Except.ok [] }

/-- Counterexample to C5: the claim says every upstream header is copied
unchanged including all values of duplicated names, but after translation
only the last value "b" of the twice-sent x-dup header survives — the
first value "a" is gone. -/
theorem c5_dup_header_counterexample :
    HttpResponse.headers (reqwest_response_to_actix (Except.ok respDup) none routeU1)
        = [("x-dup", "b")]
      ∧ ¬ (("x-dup", "a") ∈ HttpResponse.headers
            (reqwest_response_to_actix (Except.ok respDup) none routeU1)) := by decide

/-- Upstream response whose x-extra header a route overrides. -/
def respOv : UpstreamResponse :=
  { status := 200, headers := [("x-extra", "v1")], body := Except.ok [1, 2] }

/-- Route configured to inject the response header X-Extra: v2. -/
def routeOverride : Route :=
  { path_prefix := none, host := none, default := some true,
    upstream := "http://u5", strip_path_prefix := none,
    response_headers := some [("X-Extra", "v2")] }

/-- Witness for C5 amended: concrete successful translation, with the
route's configured header taking precedence over the upstream value. -/
theorem c5_translate_amended_witness :
    HttpResponse.status (reqwest_response_to_actix (Except.ok respOv) none routeOverride)
        = 200
      ∧ HttpResponse.body (reqwest_response_to_actix (Except.ok respOv) none routeOverride)
        = [1, 2]
      ∧ lookupHeader (HttpResponse.headers
            (reqwest_response_to_actix (Except.ok respOv) none routeOverride)) "x-extra"
        = (match lastValueFor (Option.getD (Route.response_headers routeOverride) []) "x-extra" with
          | some v => some v
          | none => lastValueFor (UpstreamResponse.headers respOv) "x-extra")
      ∧ lookupHeader (HttpResponse.headers
            (reqwest_response_to_actix (Except.ok respOv) none routeOverride)) "x-extra"
        = some "v2" := by
  have h := (c5_translate_amended respOv none routeOverride).1 [1, 2] rfl
  exact ⟨h.1, h.2.1, h.2.2 "x-extra", by decide⟩

/-- Helper: find? commutes with the value-append map used by pushEntry,
because that map never changes keys. -/
theorem find?_modify_map (acc : List (String × List HeaderValue)) (k : String)
    (v : HeaderValue) (n : String) :
    List.find? (fun p => p.1 == n)
        (List.map (fun p => if p.1 == k then (p.1, p.2 ++ [v]) else p) acc) =
      Option.map (fun p => if p.1 == k then (p.1, p.2 ++ [v]) else p)
        (List.find? (fun p => p.1 == n) acc) := by
  induction acc with
  | nil => rfl
  | cons a t ih =>
    have hkey : ((if (a.1 == k) = true then (a.1, a.2 ++ [v]) else a).1 == n)
        = (a.1 == n) := by
      by_cases hk : (a.1 == k) = true <;> simp [hk]
    simp only [List.map_cons, List.find?, hkey]
    cases ha : (a.1 == n)
    · exact ih
    · rfl

/-- Helper: effect of one pushEntry step on the entry found for a name. -/
theorem find?_pushEntry (acc : List (String × List HeaderValue)) (k : String)
    (v : HeaderValue) (n : String) :
    List.find? (fun p => p.1 == n) (pushEntry acc k v) =
      if n = k then
        match List.find? (fun p => p.1 == k) acc with
        | some p => some (p.1, p.2 ++ [v])
        | none => some (k, [v])
      else List.find? (fun p => p.1 == n) acc := by
  unfold pushEntry
  by_cases hany : List.any acc (fun p => p.1 == k) = true
  · rw [if_pos hany, find?_modify_map]
    by_cases hnk : n = k
    · subst hnk
      obtain ⟨p, hp⟩ : ∃ p, List.find? (fun p => p.1 == n) acc = some p := by
        rcases hf : List.find? (fun p => p.1 == n) acc with _ | p
        · rw [List.find?_eq_none] at hf
          rw [List.any_eq_true] at hany
          rcases hany with ⟨x, hx, hxk⟩
          exact absurd hxk (hf x hx)
        · exact ⟨p, hf⟩
      rw [hp, if_pos rfl]
      have hpn : (p.1 == n) = true := List.find?_some (p := fun q : String × List HeaderValue => q.1 == n) hp
      simp only [Option.map, hpn]
      simp
    · rw [if_neg hnk]
      rcases hf : List.find? (fun p => p.1 == n) acc with _ | p
      · rw [hf]
        rfl
      · rw [hf]
        have hpn : p.1 = n :=
          by simpa using List.find?_some (p := fun q : String × List HeaderValue => q.1 == n) hf
        have hpk : (p.1 == k) = false := by
          rw [hpn]
          exact beq_eq_false_iff_ne.mpr hnk
        simp only [Option.map, hpk]
        simp
  · rw [if_neg hany, List.find?_append]
    have hnone : List.find? (fun p => p.1 == k) acc = none := by
      rw [List.find?_eq_none]
      intro x hx hxk
      exact hany (List.any_eq_true.mpr ⟨x, hx, hxk⟩)
    by_cases hnk : n = k
    · subst hnk
      rw [hnone]
      simp [List.find?]
    · rw [if_neg hnk]
      have hkn : (k == n) = false := beq_eq_false_iff_ne.mpr (fun h => hnk h.symm)
      have hs : List.find? (fun p => p.1 == n) [(k, [v])] = none := by
        simp [List.find?, hkn]
      rw [hs]
      rcases List.find? (fun p => p.1 == n) acc with _ | p <;> simp

/-- Helper: the grouping fold of make_request collects, under each name,
exactly the inbound values carried (case-insensitively) by that name, in
arrival order, appended to whatever the accumulator already held. -/
theorem find?_groupFold (hs : List (String × HeaderValue))
    (acc : List (String × List HeaderValue)) (n : String) :
    List.find? (fun p => p.1 == n)
        (List.foldl (fun a kv => pushEntry a (lowerStr kv.1) kv.2) acc hs) =
      match List.find? (fun p => p.1 == n) acc with
      | some p => some (p.1, p.2 ++ inboundValuesFor hs n)
      | none =>
        if inboundValuesFor hs n = [] then none
        else some (n, inboundValuesFor hs n) := by
  induction hs generalizing acc with
  | nil =>
    have hvals : inboundValuesFor [] n = [] := rfl
    rw [hvals]
    simp only [List.foldl_nil]
    rcases hf : List.find? (fun p => p.1 == n) acc with _ | p <;> simp [hf]
  | cons kv t ih =>
    simp only [List.foldl_cons]
    rw [ih, find?_pushEntry]
    by_cases hnk : n = lowerStr kv.1
    · have hbeq : (lowerStr kv.1 == n) = true := by simp [hnk]
      have hvals : inboundValuesFor (kv :: t) n = kv.2 :: inboundValuesFor t n := by
        simp [inboundValuesFor, List.filter_cons, hbeq]
      rw [if_pos hnk, hvals, ← hnk]
      rcases hf : List.find? (fun p => p.1 == n) acc with _ | p <;> simp [hf]
    · have hbeq : (lowerStr kv.1 == n) = false :=
        beq_eq_false_iff_ne.mpr (fun h => hnk h.symm)
      have hvals : inboundValuesFor (kv :: t) n = inboundValuesFor t n := by
        simp [inboundValuesFor, List.filter_cons, hbeq]
      rw [if_neg hnk, hvals]

/-- Helper: the joined header list of make_request holds, for a name, the
inbound values for that name (those convertible to strings) joined with
the literal separator, and holds nothing for names that never occur. -/
theorem find?_processed (hs : List (String × HeaderValue)) (n : String) :
    List.find? (fun p => p.1 == n) (processed_headers hs) =
      if inboundValuesFor hs n = [] then none
      else some (n, String.intercalate "; "
        (List.filterMap headerToStr (inboundValuesFor hs n))) := by
  unfold processed_headers header_map
  rw [List.find?_map]
  have hcomp : ((fun p : String × String => p.1 == n) ∘
      (fun p : String × List HeaderValue =>
        (p.1, String.intercalate "; " (List.filterMap headerToStr p.2))))
      = (fun p : String × List HeaderValue => p.1 == n) := rfl
  rw [hcomp, find?_groupFold]
  have hnil : List.find? (fun p : String × List HeaderValue => p.1 == n) [] = none := rfl
  rw [hnil]
  by_cases hocc : inboundValuesFor hs n = []
  · rw [if_pos hocc, if_pos hocc]
    rfl
  · rw [if_neg hocc, if_neg hocc]
    rfl

/-- Helper: for a lowercase non-host name that occurs inbound, the final
outbound header list of make_request carries the joined value under that
name (first match; the loop appends the forwarded names before the
synthesized ones). -/
theorem find?_make_request (req : HttpRequest) (original_host n : String)
    (hlow : lowerStr n = n) (hhost : n ≠ "host")
    (hocc : inboundValuesFor (HttpRequest.headers req) n ≠ []) :
    List.find? (fun p => p.1 == n) (make_request_headers req original_host) =
      some (n, String.intercalate "; "
        (List.filterMap headerToStr (inboundValuesFor (HttpRequest.headers req) n))) := by
  unfold make_request_headers
  rw [List.find?_append]
  have hfil : List.find? (fun p => p.1 == n)
        (List.filter (fun p => !(lowerStr p.1 == "host"))
          (processed_headers (HttpRequest.headers req)))
      = List.find? (fun p => p.1 == n) (processed_headers (HttpRequest.headers req)) := by
    refine find?_filter_of_imp _ _ _ ?_
    intro x hx
    have hxn : x.1 = n := by simpa using hx
    rw [hxn, hlow]
    simp
    exact hhost
  rw [hfil, find?_processed, if_neg hocc]
  rfl

/-- C6: make_request groups inbound header values by name
case-insensitively and joins each group with the literal separator in
arrival order; exactly one Host header reaches the upstream request and its
value is the original inbound host — every inbound Host value is dropped by
the loop's host filter. -/
theorem c6_header_merge (req : HttpRequest) (original_host : String) :
    List.filter (fun p => p.1 == "host") (make_request_headers req original_host)
        = [("host", original_host)]
  ∧ (∀ n, List.find? (fun p => p.1 == n) (processed_headers (HttpRequest.headers req)) =
      (if inboundValuesFor (HttpRequest.headers req) n = [] then none
       else some (n, String.intercalate "; "
         (List.filterMap headerToStr (inboundValuesFor (HttpRequest.headers req) n)))))
  ∧ (∀ n, lowerStr n = n → n ≠ "host" →
      inboundValuesFor (HttpRequest.headers req) n ≠ [] →
      List.find? (fun p => p.1 == n) (make_request_headers req original_host) =
        some (n, String.intercalate "; "
          (List.filterMap headerToStr (inboundValuesFor (HttpRequest.headers req) n)))) := by
  refine ⟨?_, fun n => find?_processed (HttpRequest.headers req) n,
    fun n h1 h2 h3 => find?_make_request req original_host n h1 h2 h3⟩
  unfold make_request_headers
  rw [List.filter_append]
  have hleft : List.filter (fun p => p.1 == "host")
      (List.filter (fun p => !(lowerStr p.1 == "host"))
        (processed_headers (HttpRequest.headers req))) = [] := by
    rw [List.filter_eq_nil_iff]
    intro x hx
    have hxdrop := (List.mem_filter.mp hx).2
    intro hxh
    have hx1 : x.1 = "host" := by simpa using hxh
    rw [hx1] at hxdrop
    have : lowerStr "host" = "host" := by decide
    rw [this] at hxdrop
    simp at hxdrop
  rw [hleft]
  rw [List.filter_cons_of_pos rfl, List.filter_cons_of_neg (fun h => Bool.noConfusion h),
    List.filter_cons_of_neg (fun h => Bool.noConfusion h),
    List.filter_cons_of_neg (fun h => Bool.noConfusion h),
    List.filter_cons_of_neg (fun h => Bool.noConfusion h)]
  rfl

/-- Concrete request: one Host header and an X-Tag header sent twice with
different capitalizations. -/
def reqSample : HttpRequest :=
  { path := "/api/x", query_string := ""
    headers := [("Host", { str := "a.com", valid := true }),
                ("X-Tag", { str := "one", valid := true }),
                ("x-tag", { str := "two", valid := true })]
    uri_host := none, realip_remote_addr := some "5.6.7.8"
    scheme := "https", body := Except.ok [] }

/-- Witness for C6: the two X-Tag values are joined as "one; two" under the
case-insensitive name, and a single host header with the original host
survives. -/
theorem c6_header_merge_witness :
    List.filter (fun p => p.1 == "host") (make_request_headers reqSample "a.com")
        = [("host", "a.com")]
      ∧ List.find? (fun p => p.1 == "x-tag") (make_request_headers reqSample "a.com")
        = some ("x-tag", "one; two") := by
  have h := c6_header_merge reqSample "a.com"
  refine ⟨h.1, ?_⟩
  have h3 := h.2.2 "x-tag" (by decide) (by decide) (by decide)
  rw [h3]
  decide

/-- C10: an inbound header value that does not convert to a string is
dropped from the joined outbound value; when every value under a
(non-host) name is invalid the name is still forwarded, carrying the empty
string. -/
theorem c10_invalid_header_values (req : HttpRequest) (original_host n : String)
    (hlow : lowerStr n = n) (hhost : n ≠ "host")
    (hocc : inboundValuesFor (HttpRequest.headers req) n ≠ [])
    (hinv : ∀ v ∈ inboundValuesFor (HttpRequest.headers req) n,
      HeaderValue.valid v = false) :
    List.find? (fun p => p.1 == n) (make_request_headers req original_host)
      = some (n, "") := by
  rw [find?_make_request req original_host n hlow hhost hocc]
  have hnil : List.filterMap headerToStr (inboundValuesFor (HttpRequest.headers req) n)
      = [] := by
    rw [List.filterMap_eq_nil_iff]
    intro v hv
    simp [headerToStr, hinv v hv]
  rw [hnil]
  rfl

/-- Request carrying a single header whose value is not a valid string. -/
def reqBin : HttpRequest :=
  { path := "/", query_string := ""
    headers := [("X-Bin", { str := "", valid := false })]
    uri_host := none, realip_remote_addr := none
    scheme := "http", body := Except.ok [] }

/-- Witness for C10: the all-invalid X-Bin header is forwarded with an
empty value. -/
theorem c10_invalid_header_values_witness :
    List.find? (fun p => p.1 == "x-bin") (make_request_headers reqBin "h.com")
      = some ("x-bin", "") :=
  c10_invalid_header_values reqBin "h.com" "x-bin" (by decide) (by decide)
    (by decide) (by decide)

/-- C7: the computed X-Forwarded-For value is the inbound value, one space
and the client IP when the inbound header is present and non-empty; the
inbound value as-is when present but empty; and the client IP alone (empty
string when the remote address is unknown) when absent. -/
theorem c7_x_forwarded_for (req : HttpRequest) :
    (∀ v, headersGet (HttpRequest.headers req) "x-forwarded-for" = some v →
      HeaderValue.valid v = true → HeaderValue.str v ≠ "" →
      x_forwarded_for req
        = HeaderValue.str v ++ " " ++ Option.getD (HttpRequest.realip_remote_addr req) "")
  ∧ (∀ v, headersGet (HttpRequest.headers req) "x-forwarded-for" = some v →
      HeaderValue.valid v = true → HeaderValue.str v = "" →
      x_forwarded_for req = "")
  ∧ (headersGet (HttpRequest.headers req) "x-forwarded-for" = none →
      x_forwarded_for req = Option.getD (HttpRequest.realip_remote_addr req) "") := by
  refine ⟨?_, ?_, ?_⟩
  · intro v hg hv hs
    unfold x_forwarded_for
    rw [hg]
    have hts : headerToStr v = some (HeaderValue.str v) := by
      simp [headerToStr, hv]
    simp only [Option.bind, hts]
    rw [if_pos hs]
  · intro v hg hv hs
    unfold x_forwarded_for
    rw [hg]
    have hts : headerToStr v = some (HeaderValue.str v) := by
      simp [headerToStr, hv]
    simp only [Option.bind, hts]
    rw [if_neg (by simp [hs])]
    exact hs
  · intro hg
    unfold x_forwarded_for
    rw [hg]
    rfl

/-- Request arriving with an X-Forwarded-For chain entry. -/
def reqXff : HttpRequest :=
  { path := "/", query_string := ""
    headers := [("X-Forwarded-For", { str := "1.2.3.4", valid := true })]
    uri_host := none, realip_remote_addr := some "5.6.7.8"
    scheme := "http", body := Except.ok [] }

/-- Request arriving with no X-Forwarded-For header. -/
def reqNoXff : HttpRequest :=
  { path := "/", query_string := ""
    headers := []
    uri_host := none, realip_remote_addr := some "9.9.9.9"
    scheme := "http", body := Except.ok [] }

/-- Witness for C7: the two chaining scenarios of the spec. -/
theorem c7_x_forwarded_for_witness :
    x_forwarded_for reqXff = "1.2.3.4 5.6.7.8"
      ∧ x_forwarded_for reqNoXff = "9.9.9.9" := by
  constructor
  · have h := (c7_x_forwarded_for reqXff).1 { str := "1.2.3.4", valid := true }
      (by decide) rfl (by decide)
    rw [h]
    decide
  · have h := (c7_x_forwarded_for reqNoXff).2.2 (by decide)
    rw [h]
    decide

/-- C8: route resolution failure yields 404 with empty body; a
transport-level forwarding failure yields 502 with the failure text as
body; both carry a Server header valued at the configured
errorServerHeader, or the empty string when none is configured. -/
theorem c8_error_responses (data : Config) (req : HttpRequest)
    (forward_result : Except String UpstreamResponse) (host : String)
    (hhost : get_request_host req = some host)
    (hbody : ∃ b, HttpRequest.body req = Except.ok b) :
    (choose_route host (HttpRequest.path req) (Config.routes data) = none →
      proxy data req forward_result =
        { status := 404
          headers := [("server", get_server_header (Config.proxy data))]
          body := [] })
  ∧ (∀ e r, forward_result = Except.error e →
      choose_route host (HttpRequest.path req) (Config.routes data) = some r →
      proxy data req forward_result =
        { status := 502
          headers := [("server", get_server_header (Config.proxy data))]
          body := strBytes e })
  ∧ get_server_header (Config.proxy data)
      = (match Config.proxy data with
         | some pc => Option.getD (ProxyConfig.error_server_header pc) ""
         | none => "") := by
  obtain ⟨b, hb⟩ := hbody
  refine ⟨?_, ?_, ?_⟩
  · intro hc
    simp only [proxy, hhost, hb, hc]
    rfl
  · intro e r he hc
    simp only [proxy, hhost, hb, hc, he, reqwest_response_to_actix]
    rfl
  · rcases Config.proxy data with _ | pc <;> rfl

/-- Configuration with a configured error Server header and no routes. -/
def cfgSp : Config :=
  { routes := [], proxy := some { error_server_header := some "sp" } }

/-- Configuration with the same Server header and one default route. -/
def cfgSpD : Config :=
  { routes := [routeU2], proxy := some { error_server_header := some "sp" } }

/-- Plain request with a valid Host header. -/
def reqPlain : HttpRequest :=
  { path := "/x", query_string := ""
    headers := [("Host", { str := "h.com", valid := true })]
    uri_host := none, realip_remote_addr := none
    scheme := "http", body := Except.ok [] }

/-- Witness for C8: concrete 404 (no routes) and 502 (forwarding failed)
responses, both carrying the configured Server header. -/
theorem c8_error_responses_witness :
    proxy cfgSp reqPlain (Except.error "boom")
        = { status := 404, headers := [("server", "sp")], body := [] }
      ∧ proxy cfgSpD reqPlain (Except.error "boom")
        = { status := 502, headers := [("server", "sp")], body := strBytes "boom" } := by
  constructor
  · have h := (c8_error_responses cfgSp reqPlain (Except.error "boom") "h.com"
      (by decide) ⟨[], rfl⟩).1 (by decide)
    rw [h]
    decide
  · have h := (c8_error_responses cfgSpD reqPlain (Except.error "boom") "h.com"
      (by decide) ⟨[], rfl⟩).2.1 "boom" routeU2 rfl (by decide)
    rw [h]
    decide

/-- Configuration holding only the catch-all default route. -/
def cfgDef : Config := { routes := [routeU2], proxy := none }

/-- Request with an invalid Host header value and a usable URI host. -/
def reqBadHost : HttpRequest :=
  { path := "/", query_string := ""
    headers := [("Host", { str := "", valid := false })]
    uri_host := some "example.com", realip_remote_addr := none
    scheme := "http", body := Except.ok [] }

/-- Counterexample to C9: a usable request-target host (example.com) is
present, so the claim says the request proceeds to route resolution — and
a default route is even configured — yet the code answers a bare 502: the
Host header exists but fails to_str, and the URI host is never consulted
as a fallback. -/
theorem c9_host_counterexample :
    HttpRequest.uri_host reqBadHost = some "example.com"
      ∧ get_request_host reqBadHost = none
      ∧ proxy cfgDef reqBadHost (Except.error "e")
        = { status := 502, headers := [], body := [] } := by decide

/-- C9 amended: the request is rejected with a bare 502 before any routing
exactly when host extraction fails: with a Host header present, when its
value is not a valid string (the request-target host is not consulted);
with no Host header, when the request-target carries no host. -/
theorem c9_host_amended (req : HttpRequest) :
    (get_request_host req = none ↔
      ((∃ v, headersGet (HttpRequest.headers req) "host" = some v
          ∧ HeaderValue.valid v = false)
        ∨ (headersGet (HttpRequest.headers req) "host" = none
          ∧ HttpRequest.uri_host req = none)))
  ∧ (∀ data forward_result, get_request_host req = none →
      proxy data req forward_result = { status := 502, headers := [], body := [] }) := by
  constructor
  · unfold get_request_host
    rcases hg : headersGet (HttpRequest.headers req) "host" with _ | v
    · simp
    · simp only [hg]
      simp [headerToStr]
  · intro data forward_result h
    simp only [proxy, h]

/-- Request with no Host header and no request-target host. -/
def reqNoHost : HttpRequest :=
  { path := "/", query_string := ""
    headers := []
    uri_host := none, realip_remote_addr := none
    scheme := "http", body := Except.ok [] }

/-- Witness for C9 amended: a hostless request is answered with a bare 502
even though a default route exists. -/
theorem c9_host_amended_witness :
    proxy cfgDef reqNoHost (Except.error "e")
      = { status := 502, headers := [], body := [] } :=
  (c9_host_amended reqNoHost).2 cfgDef (Except.error "e") (by decide)
